import Mathlib

/-!
Verification development for the PMSM motor-monitoring pipeline
(`data_generator.py` and `dashboard.py`).

The generator loads fault CSV corpora, synthesizes one flat record per
cycle (`get_random_sample`) and appends it to a Firestore collection
(`push_data`).  The dashboard reads a Firestore collection through a
TTL cache (`fetch_verdicts`), renders a live feed and compiles a PDF
report (`generate_pdf_report`).

Machine reals are modelled as `ℚ`; Firestore documents are flat
association lists from field names to values, exactly the dict shape
the Python code builds; randomness is modelled by injected index
choices ranging over the same sets the Python `random` calls draw
from uniformly.
-/

namespace PMSM

/-- A Firestore timestamp value: either the `firestore.SERVER_TIMESTAMP`
sentinel (resolved by the store at write time) or a concrete instant,
measured in seconds. -/
inductive TSValue where
  | serverSentinel : TSValue
  | instant (t : ℚ) : TSValue
deriving DecidableEq

/-- A Firestore field value: a number, a string, a timestamp, or a nested
map of sensor readings (the `features` field of a verdict document). -/
inductive FValue where
  | num (q : ℚ) : FValue
  | str (s : String) : FValue
  | tsv (t : TSValue) : FValue
  | fmap (fields : List (String × ℚ)) : FValue
deriving DecidableEq

/-- A flat Firestore document / pandas row: an association list from field
names to values, in insertion order (Python dicts preserve it). -/
abbrev FlatDoc : Type := List (String × FValue)

/-- The field names of a document, in order. -/
def docKeys (d : FlatDoc) : List String := d.map Prod.fst

/-- A CSV row: column name to numeric value (all corpus columns are numeric). -/
abbrev Row : Type := List (String × ℚ)

/-- The 8 sensor feature columns of `data_generator.py`
(`FEATURE_COLS`, line 37); the FDD fault-indicator column is excluded. -/
def FEATURE_COLS : List String := ["Ia", "Ib", "VDC", "IDC", "T1", "T2", "T3", "VD"]

/-- The dict comprehension of data_generator.py line 63:
`{col: float(row[col]) for col in cols if col in row}`, as flat document
entries (`float` is the identity on the modelled rationals). -/
def featureEntries (row : Row) (cols : List String) : List (String × FValue) :=
  cols.filterMap fun col => (List.lookup col row).map fun v => (col, FValue.num v)

/-- The synthesizer `get_random_sample` (data_generator.py lines 53-67).
The Python draws `csv_file = random.choice(list(data_dict.keys()))` and
`random_idx = random.randint(0, len(df) - 1)`; those two uniform draws are
injected here as `fileIdx` (an index into the key list) and `rowIdx`.
It builds the flat dict
`{col: float(row[col]) for col in FEATURE_COLS if col in row}` then adds
`source_file` and `timestamp = firestore.SERVER_TIMESTAMP`.
An out-of-range index (e.g. `randint` on an empty frame) raises in Python;
that is `none` here. -/
def get_random_sample (data_dict : List (String × List Row))
    (fileIdx rowIdx : Nat) : Option FlatDoc :=
  match data_dict[fileIdx]? with
  | none => none
  | some (csv_file, df) =>
    match df[rowIdx]? with
    | none => none
    | some row =>
      some (featureEntries row FEATURE_COLS
            ++ [("source_file", FValue.str csv_file),
                ("timestamp", FValue.tsv TSValue.serverSentinel)])

/-! ## The shared Firestore store -/

/-- The two Firestore collections this repository touches. -/
inductive Collection where
  | raw_readings
  | verdicts
deriving DecidableEq

/-- The collection the Ingestion Appender writes to:
`db.collection("raw_readings").add(sample)` of data_generator.py line 81
(the source spells the collection name with single quotes). -/
def pushTarget : Collection := Collection.raw_readings

/-- The collection the Cached Query Layer reads from:
`db.collection("verdicts")` (dashboard.py line 31). -/
def fetchSource : Collection := Collection.verdicts

/-- The Firestore database: a document list per collection. -/
structure DB where
  docs : Collection → List FlatDoc

/-- Server-side resolution of the `SERVER_TIMESTAMP` sentinel at write time:
the store replaces the sentinel by the write instant `now`. -/
def resolveServerTs (now : ℚ) (d : FlatDoc) : FlatDoc :=
  d.map fun kv =>
    match kv with
    | (k, FValue.tsv TSValue.serverSentinel) => (k, FValue.tsv (TSValue.instant now))
    | kv => kv

/-- Firestore `collection(c).add(doc)`: append `doc` to collection `c`, with the
server assigning the timestamp. -/
def addDoc (db : DB) (c : Collection) (now : ℚ) (d : FlatDoc) : DB :=
  ⟨fun c' => if c' = c then db.docs c' ++ [resolveServerTs now d] else db.docs c'⟩

/-- One submission by the Appender: add the synthesized sample to the
`raw_readings` collection (data_generator.py line 81). -/
def push_one (db : DB) (now : ℚ) (sample : FlatDoc) : DB :=
  addDoc db pushTarget now sample

/-! ## The descending-time-order store query -/

/-- The resolved timestamp of a document, if it has one. -/
def docTimestamp (d : FlatDoc) : Option ℚ :=
  match d.lookup "timestamp" with
  | some (FValue.tsv (TSValue.instant t)) => some t
  | _ => none

/-- Insertion (stable, descending by key) used to model the ordered read
of the store. -/
def insertDescBy (key : α → ℚ) (p : α) : List α → List α
  | [] => [p]
  | q :: rest => if key q < key p then p :: q :: rest else q :: insertDescBy key p rest

/-- Stable descending sort by a rational key. -/
def sortDescBy (key : α → ℚ) (l : List α) : List α :=
  l.foldr (insertDescBy key) []

/-- The `order_by("timestamp", direction=DESCENDING)` read of the store
(dashboard.py line 31): documents that carry a resolved timestamp,
newest first (Firestore omits documents missing the ordering field). -/
def queryDescendingByTime (docs : List FlatDoc) : List FlatDoc :=
  (sortDescBy Prod.fst
    (docs.filterMap fun d => (docTimestamp d).map fun t => (t, d))).map Prod.snd

/-! ## The Cached Query Layer (`fetch_verdicts`, dashboard.py lines 28-45)

`@st.cache_data(ttl=10)` memoizes the zero-argument `fetch_verdicts`:
a call whose cached entry is younger than the TTL returns it without
touching the store; otherwise the store is read afresh and the cache
replaced.  The cache is modelled as the explicit pair
`(snapshot, capture instant)`; `storeQueries` counts the underlying
store reads a call performs.  The timezone strip in the body
(`d["timestamp"].replace(tzinfo=None)`) is the identity here because
modelled instants carry no timezone. -/

/-- The TTL of `st.cache_data(ttl=10)`, in seconds. -/
def cacheTTL : ℚ := 10

/-- The memoization state of `st.cache_data`: the cached snapshot and the
instant it was captured, if any. -/
structure CacheState where
  cached : Option (List FlatDoc × ℚ)
deriving DecidableEq

/-- Result of one `fetch_verdicts()` call. -/
structure FetchResult where
  result : List FlatDoc
  state : CacheState
  storeQueries : Nat
deriving DecidableEq

/-- One call to the cached `fetch_verdicts` at instant `now` against
store contents `store` (the `verdicts` collection). -/
def fetch_verdicts (store : List FlatDoc) (now : ℚ) (st : CacheState) :
    FetchResult :=
  match st.cached with
  | some (snap, t) =>
    if now - t < cacheTTL then ⟨snap, st, 0⟩
    else ⟨queryDescendingByTime store, ⟨some (queryDescendingByTime store, now)⟩, 1⟩
  | none => ⟨queryDescendingByTime store, ⟨some (queryDescendingByTime store, now)⟩, 1⟩

/-! ## Analytics rows

The dashboard turns the fetched documents into a pandas DataFrame and
then indexes the columns `timestamp`, `fault_label`, `location`,
`confidence`, `description`, `source_file`, `features` directly; a row
with those columns is a `Verdict`. -/

/-- One DataFrame row as the analytics code of the dashboard consumes it. -/
structure Verdict where
  timestamp : ℚ
  fault_label : String
  location : String
  confidence : ℚ
  description : String
  source_file : String
  features : List (String × ℚ)
deriving DecidableEq

/-- Round-half-to-even of a rational to an integer (numpy/pandas rounding). -/
def roundHalfEven (q : ℚ) : ℤ :=
  let f := ⌊q⌋
  if q - f < 1 / 2 then f
  else if q - f > 1 / 2 then f + 1
  else if f % 2 = 0 then f else f + 1

/-- Rounding to two decimals, `pandas.Series.round(2)`. -/
def round2 (q : ℚ) : ℚ := (roundHalfEven (q * 100) : ℚ) / 100

/-- The confidence column of the live-feed table (dashboard.py lines
104-105): the confidences of the first 15 rows, each scaled to a percentage and
rounded to two decimals, with no validation, filtering or clamping. -/
def live_feed_confidences (df : List Verdict) : List ℚ :=
  (df.take 15).map fun v => round2 (v.confidence * 100)

/-! ## The Report Compiler (`generate_pdf_report`, dashboard.py lines 48-81) -/

/-- One content element of the compiled report story. -/
inductive ReportItem where
  | title (s : String) : ReportItem
  | spacer : ReportItem
  | generated : ReportItem
  | noData : ReportItem
  | totalSamples (n : Nat) : ReportItem
  | avgConfidence (pct : ℚ) : ReportItem
  | uptimeHours (h : ℚ) : ReportItem
  | faultTable (rows : List (String × Nat)) : ReportItem
deriving DecidableEq

/-- The distinct elements of a list, first occurrences first, threading the
already-seen elements. -/
def distinctAux : List String → List String → List String
  | [], _ => []
  | l :: rest, seen =>
    if l ∈ seen then distinctAux rest seen else l :: distinctAux rest (l :: seen)

/-- The distinct elements of a list, in order of first occurrence. -/
def distinctLabels (ls : List String) : List String := distinctAux ls []

/-- Model of `pandas.Series.value_counts()`: count per distinct label, sorted by
count descending. -/
def value_counts (labels : List String) : List (String × Nat) :=
  sortDescBy (fun p => (p.2 : ℚ))
    ((distinctLabels labels).map fun l => (l, labels.count l))

/-- Maximum of the timestamp column of a non-empty frame
(`df["timestamp"].max()`); 0 on the empty frame, which the code never
reaches. -/
def tsMax : List Verdict → ℚ
  | [] => 0
  | v :: vs => vs.foldl (fun m w => max m w.timestamp) v.timestamp

/-- Minimum of the timestamp column (`df["timestamp"].min()`). -/
def tsMin : List Verdict → ℚ
  | [] => 0
  | v :: vs => vs.foldl (fun m w => min m w.timestamp) v.timestamp

/-- The report compiler `generate_pdf_report` (dashboard.py lines 48-81): title, generation
stamp, then either the no-data notice or the summary statistics and the
fault-frequency table.  `avg_conf = df["confidence"].mean() * 100` and
`uptime_hours = (max - min).total_seconds() / 3600`; timestamps are in
seconds here so `total_seconds` is the identity. -/
def generate_pdf_report (df : List Verdict) : List ReportItem :=
  [ReportItem.title "PMSM Fault Diagnosis Report", ReportItem.spacer,
   ReportItem.generated, ReportItem.spacer] ++
  (if df.isEmpty then
    [ReportItem.noData]
  else
    [ReportItem.totalSamples df.length,
     ReportItem.avgConfidence (((df.map Verdict.confidence).sum / df.length) * 100),
     ReportItem.uptimeHours ((tsMax df - tsMin df) / 3600),
     ReportItem.spacer,
     ReportItem.faultTable (value_counts (df.map Verdict.fault_label)),
     ReportItem.spacer])

/-! ## The Appender loop (`push_data`, data_generator.py lines 69-93)

The Python loop sits entirely inside one `try`: synthesize, `add` to the
store, `count += 1`, print the audit lines (which index
the Ia, Ib and VDC keys of the sample directly), sleep.
`except KeyboardInterrupt` prints the final `count`;
`except Exception` prints the error.  Each iteration is driven by the
two injected random indices plus an outcome describing whether the
`add` raises or a `KeyboardInterrupt` lands at one of the
distinguishable points of the iteration. -/

/-- What happens during one iteration of the `while True` loop. -/
inductive Outcome where
  | ok : Outcome
  | addFails : Outcome
  | interruptBeforeAdd : Outcome
  | interruptAfterAdd : Outcome
  | interruptAfterCount : Outcome
deriving DecidableEq

/-- One scheduled iteration: the two random draws plus the outcome. -/
structure IterStep where
  fileIdx : Nat
  rowIdx : Nat
  outcome : Outcome
deriving DecidableEq

/-- Why the loop stopped: the generic `except Exception` handler (logs the
error, reports no count) or the `except KeyboardInterrupt` handler (reports
the final `count`). -/
inductive StopReason where
  | errorStop : StopReason
  | interrupted (reported : Nat) : StopReason
deriving DecidableEq

/-- The loop state: the local `count`, the samples actually submitted to
the store so far, and whether (and why) the loop has exited. -/
structure RunState where
  count : Nat
  pushed : List FlatDoc
  stopped : Option StopReason
deriving DecidableEq

/-- Whether the audit print succeeds: line 84 indexes
the Ia, Ib and VDC keys of the sample; a missing key raises. -/
def auditOk (sample : FlatDoc) : Bool :=
  (docKeys sample).contains "Ia" && (docKeys sample).contains "Ib" &&
    (docKeys sample).contains "VDC"

/-- One iteration of the `push_data` loop.  A synthesis error or a failed
`add` propagates to the handlers outside the loop, so the state becomes
stopped; an interrupt after the `add` but before `count += 1` reports the
not-yet-incremented count. -/
def stepRun (data_dict : List (String × List Row)) (s : RunState)
    (st : IterStep) : RunState :=
  if s.stopped.isSome then s
  else
    match get_random_sample data_dict st.fileIdx st.rowIdx with
    | none => { s with stopped := some StopReason.errorStop }
    | some sample =>
      match st.outcome with
      | Outcome.interruptBeforeAdd =>
        { s with stopped := some (StopReason.interrupted s.count) }
      | Outcome.addFails => { s with stopped := some StopReason.errorStop }
      | Outcome.interruptAfterAdd =>
        { s with pushed := s.pushed ++ [sample],
                 stopped := some (StopReason.interrupted s.count) }
      | Outcome.interruptAfterCount =>
        if auditOk sample then
          { count := s.count + 1, pushed := s.pushed ++ [sample],
            stopped := some (StopReason.interrupted (s.count + 1)) }
        else
          { count := s.count + 1, pushed := s.pushed ++ [sample],
            stopped := some StopReason.errorStop }
      | Outcome.ok =>
        if auditOk sample then
          { count := s.count + 1, pushed := s.pushed ++ [sample], stopped := none }
        else
          { count := s.count + 1, pushed := s.pushed ++ [sample],
            stopped := some StopReason.errorStop }

/-- A full run of the `push_data` loop over a schedule of iterations. -/
def push_data_run (data_dict : List (String × List Row))
    (steps : List IterStep) : RunState :=
  steps.foldl (stepRun data_dict) ⟨0, [], none⟩

/-- A step whose synthesis succeeds and whose sample survives the audit
print: the loop body completes without raising for such a step. -/
def validStep (data_dict : List (String × List Row)) (st : IterStep) : Bool :=
  match get_random_sample data_dict st.fileIdx st.rowIdx with
  | some sample => auditOk sample
  | none => false

/-! ## Concrete inputs used by witnesses and counterexamples -/

/-- A corpus row carrying all 8 sensor channels plus the FDD column. -/
def fullRow : Row :=
  [("Ia", 1), ("Ib", 2), ("VDC", 3), ("IDC", 4),
   ("T1", 5), ("T2", 6), ("T3", 7), ("VD", 8), ("FDD", 0)]

/-- A one-dataset corpus whose single row carries all channels. -/
def exampleCorpus : List (String × List Row) := [("NORMAL_OP.csv", [fullRow])]

/-- A corpus whose single row is missing the `T3` and `VD` channels. -/
def partialCorpus : List (String × List Row) :=
  [("HB1_OVER_TEMP.csv",
    [[("Ia", 1), ("Ib", 2), ("VDC", 3), ("IDC", 4), ("T1", 5), ("T2", 6), ("FDD", 2)]])]

/-- A concrete analytics row. -/
def vExample : Verdict :=
  ⟨100, "fault1", "site1", 9 / 10, "", "NORMAL_OP.csv", [("Ia", 1)]⟩

/-- A concrete analytics row whose confidence 1.5 violates the `[0,1]`
invariant. -/
def vBadConfidence : Verdict :=
  ⟨200, "fault2", "site1", 3 / 2, "", "HB1_OVER_TEMP.csv", [("Ia", 1)]⟩

/-- A concrete synthesized sample as the generator would push it. -/
def exampleSample : FlatDoc :=
  [("Ia", FValue.num 1), ("Ib", FValue.num 2), ("VDC", FValue.num 3),
   ("source_file", FValue.str "NORMAL_OP.csv"),
   ("timestamp", FValue.tsv TSValue.serverSentinel)]

/-- A concrete store document whose confidence 1.5 is out of range. -/
def badConfidenceDoc : FlatDoc :=
  [("timestamp", FValue.tsv (TSValue.instant 5)), ("confidence", FValue.num (3 / 2))]

/-- The timestamp key of a fetched document (0 when absent), used only to
state the descending order of query results. -/
def tsKeyD (d : FlatDoc) : ℚ := (docTimestamp d).getD 0

/-- The sample `get_random_sample` produces from `exampleCorpus`. -/
def exampleSynth : FlatDoc :=
  featureEntries fullRow FEATURE_COLS
    ++ [("source_file", FValue.str "NORMAL_OP.csv"),
        ("timestamp", FValue.tsv TSValue.serverSentinel)]

/-! ## Helper lemmas -/

/-- The keys of the synthesized feature entries are the columns of
`cols` actually present in the row, in order. -/
theorem keys_featureEntries (row : Row) (cols : List String) :
    (featureEntries row cols).map Prod.fst =
      cols.filter fun c => (List.lookup c row).isSome := by
  induction cols with
  | nil => rfl
  | cons c cs ih =>
    cases h : List.lookup c row with
    | none => simp [featureEntries, List.filterMap_cons, h, List.filter_cons] at ih ⊢; exact ih
    | some v => simp [featureEntries, List.filterMap_cons, h, List.filter_cons] at ih ⊢; exact ih

/-- Looking up a key that is not a feature column skips past the feature
entries. -/
theorem lookup_featureEntries_append (a : String) (row : Row) (cols : List String)
    (tail : List (String × FValue)) (ha : a ∉ cols) :
    List.lookup a (featureEntries row cols ++ tail) = List.lookup a tail := by
  induction cols with
  | nil => rfl
  | cons c cs ih =>
    have hac : a ≠ c := fun h => ha (h ▸ List.mem_cons_self c cs)
    have ha' : a ∉ cs := fun h => ha (List.mem_cons_of_mem c h)
    cases h : List.lookup c row with
    | none =>
      simpa [featureEntries, List.filterMap_cons, h] using ih ha'
    | some v =>
      have : (a == c) = false := beq_eq_false_iff_ne.mpr hac
      simpa [featureEntries, List.filterMap_cons, h, List.lookup, this] using ih ha'

/-- Every feature entry holds the looked-up row value of its key. -/
theorem mem_featureEntries (row : Row) (cols : List String) (c : String) (x : FValue)
    (h : (c, x) ∈ featureEntries row cols) :
    ∃ v, x = FValue.num v ∧ List.lookup c row = some v := by
  rcases List.mem_filterMap.mp h with ⟨col, _, hmap⟩
  rcases Option.map_eq_some'.mp hmap with ⟨v, hv, heq⟩
  cases heq
  exact ⟨v, rfl, hv⟩

/-- Inversion of a successful synthesis: the sample is the present
feature columns followed by `source_file` and the timestamp sentinel. -/
theorem get_random_sample_eq (data_dict : List (String × List Row))
    (fileIdx rowIdx : Nat) (s : FlatDoc)
    (h : get_random_sample data_dict fileIdx rowIdx = some s) :
    ∃ name rows row, data_dict[fileIdx]? = some (name, rows) ∧
      rows[rowIdx]? = some row ∧
      s = featureEntries row FEATURE_COLS
          ++ [("source_file", FValue.str name),
              ("timestamp", FValue.tsv TSValue.serverSentinel)] := by
  unfold get_random_sample at h
  cases h1 : data_dict[fileIdx]? with
  | none => rw [h1] at h; exact absurd h (by simp)
  | some kv =>
    obtain ⟨name, rows⟩ := kv
    rw [h1] at h
    simp only [] at h
    cases h2 : rows[rowIdx]? with
    | none => rw [h2] at h; exact absurd h (by simp)
    | some row =>
      rw [h2] at h
      simp only [Option.some.injEq] at h
      exact ⟨name, rows, row, h1 ▸ rfl, h2, h.symm⟩

/-- Insertion preserves the elements. -/
theorem mem_insertDescBy (key : α → ℚ) (p x : α) (l : List α) :
    x ∈ insertDescBy key p l ↔ x = p ∨ x ∈ l := by
  induction l with
  | nil => simp [insertDescBy]
  | cons q rest ih =>
    by_cases h : key q < key p
    · simp [insertDescBy, h]
    · simp [insertDescBy, h, ih]
      tauto

/-- Insertion preserves descending order. -/
theorem sorted_insertDescBy (key : α → ℚ) (p : α) (l : List α)
    (hl : l.Pairwise fun a b => key b ≤ key a) :
    (insertDescBy key p l).Pairwise fun a b => key b ≤ key a := by
  induction l with
  | nil => simp [insertDescBy]
  | cons q rest ih =>
    rcases List.pairwise_cons.mp hl with ⟨hq, hrest⟩
    by_cases h : key q < key p
    · rw [insertDescBy, if_pos h]
      refine List.pairwise_cons.mpr ⟨?_, hl⟩
      intro b hb
      rcases List.mem_cons.mp hb with rfl | hb
      · exact le_of_lt h
      · exact le_trans (hq b hb) (le_of_lt h)
    · rw [insertDescBy, if_neg h]
      refine List.pairwise_cons.mpr ⟨?_, ih hrest⟩
      intro b hb
      rcases (mem_insertDescBy key p b rest).mp hb with rfl | hb
      · exact not_lt.mp h
      · exact hq b hb

/-- The descending sort is sorted. -/
theorem sorted_sortDescBy (key : α → ℚ) (l : List α) :
    (sortDescBy key l).Pairwise fun a b => key b ≤ key a := by
  induction l with
  | nil => exact List.Pairwise.nil
  | cons p rest ih => exact sorted_insertDescBy key p _ ih

/-- The descending sort preserves the elements. -/
theorem mem_sortDescBy (key : α → ℚ) (l : List α) (x : α) :
    x ∈ sortDescBy key l ↔ x ∈ l := by
  induction l with
  | nil => exact Iff.rfl
  | cons p rest ih =>
    show x ∈ insertDescBy key p (sortDescBy key rest) ↔ _
    rw [mem_insertDescBy]
    simp [ih]

/-- The descending store read really is descending in the document
timestamps. -/
theorem query_descending_sorted (docs : List FlatDoc) :
    (queryDescendingByTime docs).Pairwise fun a b => tsKeyD b ≤ tsKeyD a := by
  unfold queryDescendingByTime
  rw [List.pairwise_map]
  have hsorted := sorted_sortDescBy (Prod.fst (β := FlatDoc))
    (docs.filterMap fun d => (docTimestamp d).map fun t => (t, d))
  refine hsorted.imp_of_mem ?_
  intro a b ha hb hab
  have hts : ∀ c : ℚ × FlatDoc,
      c ∈ sortDescBy (Prod.fst (β := FlatDoc))
        (docs.filterMap fun d => (docTimestamp d).map fun t => (t, d)) →
      tsKeyD c.2 = c.1 := by
    intro c hc
    rcases List.mem_filterMap.mp ((mem_sortDescBy _ _ _).mp hc) with ⟨d, _, hmap⟩
    rcases Option.map_eq_some'.mp hmap with ⟨t, hd, heq⟩
    cases heq
    simp [tsKeyD, hd]
  rw [hts a ha, hts b hb]
  exact hab

/-- A stopped run state absorbs one further iteration. -/
theorem stepRun_stopped (dd : List (String × List Row)) (s : RunState)
    (st : IterStep) (h : s.stopped.isSome = true) : stepRun dd s st = s := by
  unfold stepRun
  rw [if_pos h]

/-- A stopped run state absorbs every further iteration. -/
theorem foldl_stepRun_stopped (dd : List (String × List Row)) (s : RunState)
    (l : List IterStep) (h : s.stopped.isSome = true) :
    l.foldl (stepRun dd) s = s := by
  induction l with
  | nil => rfl
  | cons st rest ih => rw [List.foldl_cons, stepRun_stopped dd s st h]; exact ih

/-- A prefix of valid, uninterrupted iterations advances the counter and
the submission list in lockstep and leaves the loop running. -/
theorem foldl_ok_prefix (dd : List (String × List Row)) :
    ∀ (pre : List IterStep) (c : Nat) (p : List FlatDoc),
      (∀ s ∈ pre, s.outcome = Outcome.ok ∧ validStep dd s = true) →
      ∃ q : List FlatDoc,
        pre.foldl (stepRun dd) ⟨c, p, none⟩ = ⟨c + pre.length, p ++ q, none⟩ ∧
        q.length = pre.length := by
  intro pre
  induction pre with
  | nil => intro c p _; exact ⟨[], by simp, rfl⟩
  | cons s rest ih =>
    intro c p hp
    obtain ⟨hok, hval⟩ := hp s (List.mem_cons_self s rest)
    unfold validStep at hval
    cases hg : get_random_sample dd s.fileIdx s.rowIdx with
    | none => rw [hg] at hval; exact absurd hval (by simp)
    | some sample =>
      rw [hg] at hval
      simp only [] at hval
      have hstep : stepRun dd ⟨c, p, none⟩ s = ⟨c + 1, p ++ [sample], none⟩ := by
        simp [stepRun, hg, hok, hval]
      rw [List.foldl_cons, hstep]
      rcases ih (c + 1) (p ++ [sample])
          (fun t ht => hp t (List.mem_cons_of_mem s ht)) with ⟨q, hq, hlen⟩
      refine ⟨sample :: q, ?_, by simp [hlen]⟩
      rw [hq, List.append_assoc]
      simp
      omega

/-! ## Claim theorems -/

/-- C1 counterexample: on the empty store, a record submitted by the
Appender lands in the `raw_readings` collection, while `fetch_verdicts`
reads the distinct `verdicts` collection, so a subsequent post-TTL
fetch (fresh query, empty cache) returns a result that does not contain
the appended record. -/
theorem C1_counterexample :
    pushTarget ≠ fetchSource ∧
    (push_one ⟨fun _ => []⟩ 0 exampleSample).docs pushTarget =
      [resolveServerTs 0 exampleSample] ∧
    (push_one ⟨fun _ => []⟩ 0 exampleSample).docs fetchSource = [] ∧
    (fetch_verdicts ((push_one ⟨fun _ => []⟩ 0 exampleSample).docs fetchSource)
        20 ⟨none⟩).result = [] := by
  refine ⟨by decide, by decide, by decide, by decide⟩

/-- C1 amended: the Appender writes to collection `raw_readings` while the
Cached Query Layer reads collection `verdicts`; the two are distinct, so an
append never changes what any fetchAll (cached or fresh) returns — the
record reaches only `raw_readings`, and some external step outside this
repository would have to move it into `verdicts`. -/
theorem C1_distinct_collections (db : DB) (now : ℚ) (s : FlatDoc)
    (t : ℚ) (st : CacheState) :
    pushTarget ≠ fetchSource ∧
    (push_one db now s).docs fetchSource = db.docs fetchSource ∧
    fetch_verdicts ((push_one db now s).docs fetchSource) t st =
      fetch_verdicts (db.docs fetchSource) t st ∧
    (push_one db now s).docs pushTarget =
      db.docs pushTarget ++ [resolveServerTs now s] := by
  have hsame : (push_one db now s).docs fetchSource = db.docs fetchSource := by
    simp [push_one, addDoc, pushTarget, fetchSource]
  exact ⟨by decide, hsame, by rw [hsame], by simp [push_one, addDoc]⟩

/-- C3 counterexample: a verdict whose confidence 1.5 violates `[0,1]` is
not rejected anywhere: the query layer returns the raw store document
unchanged and the live feed displays it as 150%; and the synthesis
boundary cannot reject it because synthesized samples carry no
confidence field at all. -/
theorem C3_counterexample :
    ¬ (0 ≤ vBadConfidence.confidence ∧ vBadConfidence.confidence ≤ 1) ∧
    live_feed_confidences [vBadConfidence] = [150] ∧
    (fetch_verdicts [badConfidenceDoc] 0 ⟨none⟩).result = [badConfidenceDoc] ∧
    (get_random_sample exampleCorpus 0 0).bind (List.lookup "confidence") = none := by
  refine ⟨?_, ?_, rfl, by decide⟩
  · intro hrange
    have : ¬ ((3 : ℚ) / 2 ≤ 1) := by norm_num
    exact this hrange.2
  · have hmul : vBadConfidence.confidence * 100 = 150 := by norm_num [vBadConfidence]
    have hround : round2 150 = 150 := by
      unfold round2 roundHalfEven
      norm_num
    simp [live_feed_confidences, hmul, hround]

/-- C3 amended: no boundary validates confidence — the synthesizer emits
no confidence field at all, and the live feed displays every fetched
confidence of every fetched record scaled to a percentage, in range or not, with no
rejection and no clamping. -/
theorem C3_confidence_unvalidated (data_dict : List (String × List Row))
    (fileIdx rowIdx : Nat) (s : FlatDoc)
    (hs : get_random_sample data_dict fileIdx rowIdx = some s)
    (df : List Verdict) (v : Verdict) (hv : v ∈ df.take 15) :
    List.lookup "confidence" s = none ∧
    round2 (v.confidence * 100) ∈ live_feed_confidences df := by
  constructor
  · rcases get_random_sample_eq data_dict fileIdx rowIdx s hs with
      ⟨name, rows, row, _, _, rfl⟩
    rw [lookup_featureEntries_append "confidence" row FEATURE_COLS _ (by decide)]
    rfl
  · exact List.mem_map_of_mem _ hv

/-- Witness for the amended C3 theorem at a concrete sample and snapshot. -/
theorem C3_confidence_unvalidated_witness :
    get_random_sample exampleCorpus 0 0 = some exampleSynth ∧
    vBadConfidence ∈ ([vBadConfidence] : List Verdict).take 15 ∧
    List.lookup "confidence" exampleSynth = none ∧
    round2 (vBadConfidence.confidence * 100) ∈ live_feed_confidences [vBadConfidence] :=
  ⟨by decide, List.mem_singleton.mpr rfl,
   (C3_confidence_unvalidated exampleCorpus 0 0 exampleSynth (by decide)
      [vBadConfidence] vBadConfidence (List.mem_singleton.mpr rfl)).1,
   (C3_confidence_unvalidated exampleCorpus 0 0 exampleSynth (by decide)
      [vBadConfidence] vBadConfidence (List.mem_singleton.mpr rfl)).2⟩

/-- C5: the TTL cache of `fetch_verdicts`.  Two calls within the TTL
window issue at most one underlying store query; when the first call
misses (e.g. no cache yet) it issues the single query and the second call
returns that cached result with no store query; a call whose cache has
aged past the TTL issues exactly one fresh descending-time-order read and
replaces the cache with it; and the fresh read really is in descending
timestamp order. -/
theorem C5_ttl_cache :
    (∀ (store : List FlatDoc) (st : CacheState) (t1 t2 : ℚ),
      t2 - t1 < cacheTTL →
      (fetch_verdicts store t1 st).storeQueries +
        (fetch_verdicts store t2 (fetch_verdicts store t1 st).state).storeQueries ≤ 1) ∧
    (∀ (store : List FlatDoc) (st : CacheState) (t1 t2 : ℚ) (snap : List FlatDoc) (tc : ℚ),
      (fetch_verdicts store t1 st).state.cached = some (snap, tc) →
      t2 - tc < cacheTTL →
      (fetch_verdicts store t2 (fetch_verdicts store t1 st).state).storeQueries = 0 ∧
      (fetch_verdicts store t2 (fetch_verdicts store t1 st).state).result =
        (fetch_verdicts store t1 st).result) ∧
    (∀ (store : List FlatDoc) (snap : List FlatDoc) (t0 now : ℚ),
      cacheTTL ≤ now - t0 →
      fetch_verdicts store now ⟨some (snap, t0)⟩ =
        ⟨queryDescendingByTime store,
         ⟨some (queryDescendingByTime store, now)⟩, 1⟩) ∧
    (∀ store : List FlatDoc,
      (queryDescendingByTime store).Pairwise fun a b => tsKeyD b ≤ tsKeyD a) := by
  refine ⟨?_, ?_, ?_, query_descending_sorted⟩
  · intro store st t1 t2 h
    match hc : st.cached with
    | none => simp [fetch_verdicts, hc, h]
    | some (snap, t0) =>
      by_cases h1 : t1 - t0 < cacheTTL
      · simp only [fetch_verdicts, hc, if_pos h1]
        split <;> simp
      · simp [fetch_verdicts, hc, if_neg h1, h]
  · intro store st t1 t2 snap tc hc h
    match hst : st.cached with
    | none =>
      simp only [fetch_verdicts, hst, Option.some.injEq, Prod.mk.injEq] at hc ⊢
      obtain ⟨rfl, rfl⟩ := hc
      simp [h]
    | some pair =>
      obtain ⟨snap0, t0⟩ := pair
      by_cases h1 : t1 - t0 < cacheTTL
      · simp only [fetch_verdicts, hst, if_pos h1, Option.some.injEq,
          Prod.mk.injEq] at hc ⊢
        obtain ⟨rfl, rfl⟩ := hc
        simp [h1, h]
      · simp only [fetch_verdicts, hst, if_neg h1, Option.some.injEq,
          Prod.mk.injEq] at hc ⊢
        obtain ⟨rfl, rfl⟩ := hc
        simp [h]
  · intro store snap t0 now h
    simp [fetch_verdicts, not_lt.mpr h]

/-- Witness for C5 at concrete instants: a cold call at t=0 plus a call at
t=5 hit the store once in total, and a call at t=12 on a cache captured at
t=0 issues exactly one fresh query. -/
theorem C5_ttl_cache_witness :
    ((5 : ℚ) - 0 < cacheTTL) ∧
    ((fetch_verdicts [badConfidenceDoc] 0 ⟨none⟩).storeQueries +
      (fetch_verdicts [badConfidenceDoc] 5
        (fetch_verdicts [badConfidenceDoc] 0 ⟨none⟩).state).storeQueries ≤ 1) ∧
    (cacheTTL ≤ (12 : ℚ) - 0) ∧
    fetch_verdicts [badConfidenceDoc] 12 ⟨some ([], 0)⟩ =
      ⟨queryDescendingByTime [badConfidenceDoc],
       ⟨some (queryDescendingByTime [badConfidenceDoc], 12)⟩, 1⟩ :=
  ⟨by norm_num [cacheTTL],
   C5_ttl_cache.1 [badConfidenceDoc] ⟨none⟩ 0 5 (by norm_num [cacheTTL]),
   by norm_num [cacheTTL],
   C5_ttl_cache.2.2.1 [badConfidenceDoc] [] 0 12 (by norm_num [cacheTTL])⟩

/-- C8: on the empty snapshot the compiled report carries the explicit
no-data notice and none of the summary statistics: no sample count, no
mean confidence, no uptime span are produced at all (so none can be 0 or
NaN). -/
theorem C8_empty_report_no_stats :
    generate_pdf_report [] =
      [ReportItem.title "PMSM Fault Diagnosis Report", ReportItem.spacer,
       ReportItem.generated, ReportItem.spacer, ReportItem.noData] ∧
    ReportItem.noData ∈ generate_pdf_report [] ∧
    (∀ n, ReportItem.totalSamples n ∉ generate_pdf_report []) ∧
    (∀ q, ReportItem.avgConfidence q ∉ generate_pdf_report []) ∧
    (∀ q, ReportItem.uptimeHours q ∉ generate_pdf_report []) := by
  refine ⟨rfl, ?_, ?_, ?_, ?_⟩ <;> simp [generate_pdf_report]

/-- C9: the report of every non-empty snapshot contains the uptime span
`(max timestamp − min timestamp) / 3600` hours, and a singleton snapshot
reports an uptime span of exactly 0 (no error). -/
theorem C9_uptime_span :
    (∀ df : List Verdict, df ≠ [] →
      ReportItem.uptimeHours ((tsMax df - tsMin df) / 3600) ∈ generate_pdf_report df) ∧
    (∀ v : Verdict, ReportItem.uptimeHours 0 ∈ generate_pdf_report [v]) := by
  constructor
  · intro df hdf
    simp only [generate_pdf_report, List.isEmpty_eq_true]
    rw [if_neg hdf]
    simp
  · intro v
    have h : tsMax [v] - tsMin [v] = 0 := by
      simp [tsMax, tsMin]
    simp only [generate_pdf_report, List.isEmpty_eq_true]
    rw [if_neg (by simp : ([v] : List Verdict) ≠ [])]
    simp [h]

/-- C2 counterexample: a single failed submission DOES terminate the
loop — after an `addFails` iteration the run is stopped with the generic
stop reason of the generic error handler, and a following healthy iteration never
executes (the run equals the run without it, with count 0 and nothing
pushed). -/
theorem C2_counterexample :
    (push_data_run exampleCorpus
      [⟨0, 0, Outcome.addFails⟩, ⟨0, 0, Outcome.ok⟩]).stopped =
        some StopReason.errorStop ∧
    (push_data_run exampleCorpus
      [⟨0, 0, Outcome.addFails⟩, ⟨0, 0, Outcome.ok⟩]).count = 0 ∧
    (push_data_run exampleCorpus
      [⟨0, 0, Outcome.addFails⟩, ⟨0, 0, Outcome.ok⟩]).pushed = [] ∧
    push_data_run exampleCorpus [⟨0, 0, Outcome.addFails⟩, ⟨0, 0, Outcome.ok⟩] =
      push_data_run exampleCorpus [⟨0, 0, Outcome.addFails⟩] := by
  refine ⟨by decide, by decide, by decide, by decide⟩

/-- C2 amended: the `try` of `push_data` wraps the entire `while` loop, so
the first store error ends the stream: the failure reaches the generic
exception handler (which logs it), the loop stops with exactly the
iterations before the failure counted, and no later iteration runs. -/
theorem C2_add_failure_stops_loop (dd : List (String × List Row))
    (pre post : List IterStep) (st : IterStep)
    (hpre : ∀ s ∈ pre, s.outcome = Outcome.ok ∧ validStep dd s = true)
    (hst : st.outcome = Outcome.addFails) :
    push_data_run dd (pre ++ st :: post) = push_data_run dd (pre ++ [st]) ∧
    (push_data_run dd (pre ++ [st])).stopped = some StopReason.errorStop ∧
    (push_data_run dd (pre ++ [st])).count = pre.length ∧
    (push_data_run dd (pre ++ [st])).pushed.length = pre.length := by
  rcases foldl_ok_prefix dd pre 0 [] hpre with ⟨q, hq, hlen⟩
  have hstep : stepRun dd ⟨pre.length, q, none⟩ st =
      ⟨pre.length, q, some StopReason.errorStop⟩ := by
    cases hg : get_random_sample dd st.fileIdx st.rowIdx with
    | none => simp [stepRun, hg]
    | some sample => simp [stepRun, hg, hst]
  have hrun1 : push_data_run dd (pre ++ [st]) =
      ⟨pre.length, q, some StopReason.errorStop⟩ := by
    unfold push_data_run
    rw [List.foldl_append, hq]
    simp only [Nat.zero_add, List.nil_append]
    rw [List.foldl_cons, hstep, List.foldl_nil]
  have hrun2 : push_data_run dd (pre ++ st :: post) =
      ⟨pre.length, q, some StopReason.errorStop⟩ := by
    unfold push_data_run
    rw [List.foldl_append, hq]
    simp only [Nat.zero_add, List.nil_append]
    rw [List.foldl_cons, hstep,
        foldl_stepRun_stopped dd ⟨pre.length, q, some StopReason.errorStop⟩ post rfl]
  refine ⟨hrun2.trans hrun1.symm, by rw [hrun1], by rw [hrun1], ?_⟩
  rw [hrun1]
  exact hlen

/-- Witness for the amended C2 theorem: one healthy iteration, then a failed
add, then a would-be healthy iteration that never runs. -/
theorem C2_add_failure_stops_loop_witness :
    (∀ s ∈ [(⟨0, 0, Outcome.ok⟩ : IterStep)],
      s.outcome = Outcome.ok ∧ validStep exampleCorpus s = true) ∧
    (⟨0, 0, Outcome.addFails⟩ : IterStep).outcome = Outcome.addFails ∧
    push_data_run exampleCorpus
        ([⟨0, 0, Outcome.ok⟩] ++ ⟨0, 0, Outcome.addFails⟩ :: [⟨0, 0, Outcome.ok⟩]) =
      push_data_run exampleCorpus ([⟨0, 0, Outcome.ok⟩] ++ [⟨0, 0, Outcome.addFails⟩]) ∧
    (push_data_run exampleCorpus
        ([⟨0, 0, Outcome.ok⟩] ++ [⟨0, 0, Outcome.addFails⟩])).stopped =
      some StopReason.errorStop ∧
    (push_data_run exampleCorpus
        ([⟨0, 0, Outcome.ok⟩] ++ [⟨0, 0, Outcome.addFails⟩])).count =
      [(⟨0, 0, Outcome.ok⟩ : IterStep)].length :=
  ⟨by decide, rfl,
   (C2_add_failure_stops_loop exampleCorpus [⟨0, 0, Outcome.ok⟩]
      [⟨0, 0, Outcome.ok⟩] ⟨0, 0, Outcome.addFails⟩ (by decide) rfl).1,
   (C2_add_failure_stops_loop exampleCorpus [⟨0, 0, Outcome.ok⟩]
      [⟨0, 0, Outcome.ok⟩] ⟨0, 0, Outcome.addFails⟩ (by decide) rfl).2.1,
   (C2_add_failure_stops_loop exampleCorpus [⟨0, 0, Outcome.ok⟩]
      [⟨0, 0, Outcome.ok⟩] ⟨0, 0, Outcome.addFails⟩ (by decide) rfl).2.2.1⟩

/-- C7 counterexample: a stop signal landing between the store submission
and the `count += 1` makes the handler report 0 while 1 record was
actually submitted — the reported count does not equal the submissions
for every interrupt point. -/
theorem C7_counterexample :
    (push_data_run exampleCorpus [⟨0, 0, Outcome.interruptAfterAdd⟩]).stopped =
      some (StopReason.interrupted 0) ∧
    (push_data_run exampleCorpus [⟨0, 0, Outcome.interruptAfterAdd⟩]).pushed.length = 1 :=
  ⟨by decide, by decide⟩

/-- C7 amended: the loop exits cleanly on the stop signal and the reported
count equals the records actually submitted whenever the signal lands
mid-sleep / after the count increment, or before the submission of the
current iteration; only a signal in the window between the `add` call and
the increment undercounts by one. -/
theorem C7_stop_reports_submissions (dd : List (String × List Row))
    (pre : List IterStep) (st : IterStep)
    (hpre : ∀ s ∈ pre, s.outcome = Outcome.ok ∧ validStep dd s = true)
    (hv : validStep dd st = true) :
    (st.outcome = Outcome.interruptAfterCount →
      (push_data_run dd (pre ++ [st])).stopped =
        some (StopReason.interrupted (pre.length + 1)) ∧
      (push_data_run dd (pre ++ [st])).pushed.length = pre.length + 1) ∧
    (st.outcome = Outcome.interruptBeforeAdd →
      (push_data_run dd (pre ++ [st])).stopped =
        some (StopReason.interrupted pre.length) ∧
      (push_data_run dd (pre ++ [st])).pushed.length = pre.length) := by
  rcases foldl_ok_prefix dd pre 0 [] hpre with ⟨q, hq, hlen⟩
  unfold validStep at hv
  cases hg : get_random_sample dd st.fileIdx st.rowIdx with
  | none => rw [hg] at hv; exact absurd hv (by simp)
  | some sample =>
    rw [hg] at hv
    simp only [] at hv
    constructor
    · intro hout
      have hrun : push_data_run dd (pre ++ [st]) =
          ⟨pre.length + 1, q ++ [sample],
           some (StopReason.interrupted (pre.length + 1))⟩ := by
        unfold push_data_run
        rw [List.foldl_append, hq]
        simp [stepRun, hg, hout, hv]
      rw [hrun]
      exact ⟨rfl, by simp [hlen]⟩
    · intro hout
      have hrun : push_data_run dd (pre ++ [st]) =
          ⟨pre.length, q, some (StopReason.interrupted pre.length)⟩ := by
        unfold push_data_run
        rw [List.foldl_append, hq]
        simp [stepRun, hg, hout]
      rw [hrun]
      exact ⟨rfl, hlen⟩

/-- Witness for the amended C7 theorem: a mid-sleep stop after one full
iteration reports exactly the one submitted record. -/
theorem C7_stop_reports_submissions_witness :
    validStep exampleCorpus ⟨0, 0, Outcome.interruptAfterCount⟩ = true ∧
    (push_data_run exampleCorpus
        (([] : List IterStep) ++ [⟨0, 0, Outcome.interruptAfterCount⟩])).stopped =
      some (StopReason.interrupted (([] : List IterStep).length + 1)) ∧
    (push_data_run exampleCorpus
        (([] : List IterStep) ++ [⟨0, 0, Outcome.interruptAfterCount⟩])).pushed.length =
      ([] : List IterStep).length + 1 :=
  ⟨by decide,
   ((C7_stop_reports_submissions exampleCorpus []
      ⟨0, 0, Outcome.interruptAfterCount⟩ (by simp) (by decide)).1 rfl).1,
   ((C7_stop_reports_submissions exampleCorpus []
      ⟨0, 0, Outcome.interruptAfterCount⟩ (by simp) (by decide)).1 rfl).2⟩

/-- C4 counterexample: on a concrete corpus the record returned by
`get_random_sample` does NOT have its timestamp field unset — the
synthesis step itself populates the field (with the
`firestore.SERVER_TIMESTAMP` sentinel, data_generator.py line 65). -/
theorem C4_counterexample :
    (get_random_sample exampleCorpus 0 0).bind (List.lookup "timestamp") =
      some (FValue.tsv TSValue.serverSentinel) := by decide

/-- C4 amended: the synthesizer always sets the `timestamp` field to the
server-timestamp sentinel, so the concrete instant is still assigned by
the store at the persistence boundary, but the field itself is populated
inside the synthesis step, not left unset. -/
theorem C4_timestamp_sentinel (data_dict : List (String × List Row))
    (fileIdx rowIdx : Nat) (s : FlatDoc)
    (h : get_random_sample data_dict fileIdx rowIdx = some s) :
    List.lookup "timestamp" s = some (FValue.tsv TSValue.serverSentinel) := by
  unfold get_random_sample at h
  cases h1 : data_dict[fileIdx]? with
  | none => rw [h1] at h; exact absurd h (by simp)
  | some kv =>
    obtain ⟨csv_file, df⟩ := kv
    rw [h1] at h
    simp only [] at h
    cases h2 : df[rowIdx]? with
    | none => rw [h2] at h; exact absurd h (by simp)
    | some row =>
      rw [h2] at h
      simp only [Option.some.injEq] at h
      subst h
      rw [lookup_featureEntries_append "timestamp" row FEATURE_COLS _ (by decide)]
      rfl

/-- Witness for the amended C4 theorem at a concrete corpus. -/
theorem C4_timestamp_sentinel_witness :
    get_random_sample exampleCorpus 0 0 =
      some (featureEntries fullRow FEATURE_COLS
            ++ [("source_file", FValue.str "NORMAL_OP.csv"),
                ("timestamp", FValue.tsv TSValue.serverSentinel)]) ∧
    List.lookup "timestamp"
      (featureEntries fullRow FEATURE_COLS
        ++ [("source_file", FValue.str "NORMAL_OP.csv"),
            ("timestamp", FValue.tsv TSValue.serverSentinel)]) =
      some (FValue.tsv TSValue.serverSentinel) :=
  ⟨by decide, C4_timestamp_sentinel exampleCorpus 0 0 _ (by decide)⟩

/-- C6: with the two uniform draws injected as indices ranging over the
whole key list and the whole row range, every synthesized sample carries
`source_file` equal to the name of the drawn dataset, its keys are exactly the
8 sensor channels (when the row carries them all), and every feature
value is the looked-up value of that very row — provenance integrity. -/
theorem C6_provenance (data_dict : List (String × List Row)) (fileIdx rowIdx : Nat)
    (name : String) (rows : List Row) (row : Row)
    (h1 : data_dict[fileIdx]? = some (name, rows))
    (h2 : rows[rowIdx]? = some row)
    (hfull : ∀ c ∈ FEATURE_COLS, (List.lookup c row).isSome = true) :
    ∃ s, get_random_sample data_dict fileIdx rowIdx = some s ∧
      List.lookup "source_file" s = some (FValue.str name) ∧
      docKeys s = FEATURE_COLS ++ ["source_file", "timestamp"] ∧
      ∀ c v, (c, FValue.num v) ∈ s → List.lookup c row = some v := by
  refine ⟨featureEntries row FEATURE_COLS
          ++ [("source_file", FValue.str name),
              ("timestamp", FValue.tsv TSValue.serverSentinel)], ?_, ?_, ?_, ?_⟩
  · simp [get_random_sample, h1, h2]
  · rw [lookup_featureEntries_append "source_file" row FEATURE_COLS _ (by decide)]
    rfl
  · show (featureEntries row FEATURE_COLS ++ _).map Prod.fst = _
    rw [List.map_append, keys_featureEntries]
    rw [List.filter_eq_self.mpr hfull]
    rfl
  · intro c v hmem
    rcases List.mem_append.mp hmem with hmem | hmem
    · rcases mem_featureEntries row FEATURE_COLS c (FValue.num v) hmem with ⟨v', hv', hlook⟩
      injection hv' with hvv
      rw [hvv]
      exact hlook
    · exact absurd hmem (by simp)

/-- Witness for C6 at a concrete corpus whose row carries all 8 channels. -/
theorem C6_provenance_witness :
    exampleCorpus[0]? = some ("NORMAL_OP.csv", [fullRow]) ∧
    ([fullRow] : List Row)[0]? = some fullRow ∧
    (∀ c ∈ FEATURE_COLS, (List.lookup c fullRow).isSome = true) ∧
    ∃ s, get_random_sample exampleCorpus 0 0 = some s ∧
      List.lookup "source_file" s = some (FValue.str "NORMAL_OP.csv") ∧
      docKeys s = FEATURE_COLS ++ ["source_file", "timestamp"] ∧
      ∀ c v, (c, FValue.num v) ∈ s → List.lookup c fullRow = some v :=
  ⟨by decide, by decide, by decide,
   C6_provenance exampleCorpus 0 0 "NORMAL_OP.csv" [fullRow] fullRow
     (by decide) (by decide) (by decide)⟩

/-- C10: for every selected row the keys of the synthesized sample are exactly
the feature columns present in that row (plus `source_file` and
`timestamp`): channels missing from the row are silently omitted and the
synthesis still succeeds rather than raising. -/
theorem C10_missing_channels_omitted (data_dict : List (String × List Row))
    (fileIdx rowIdx : Nat) (name : String) (rows : List Row) (row : Row)
    (h1 : data_dict[fileIdx]? = some (name, rows))
    (h2 : rows[rowIdx]? = some row) :
    ∃ s, get_random_sample data_dict fileIdx rowIdx = some s ∧
      docKeys s = (FEATURE_COLS.filter fun c => (List.lookup c row).isSome)
        ++ ["source_file", "timestamp"] := by
  refine ⟨featureEntries row FEATURE_COLS
          ++ [("source_file", FValue.str name),
              ("timestamp", FValue.tsv TSValue.serverSentinel)], ?_, ?_⟩
  · simp [get_random_sample, h1, h2]
  · show (featureEntries row FEATURE_COLS ++ _).map Prod.fst = _
    rw [List.map_append, keys_featureEntries]
    rfl

/-- Witness for C10 at a corpus whose row is missing `T3` and `VD`: the
sample is produced with only 6 feature keys and no error. -/
theorem C10_missing_channels_omitted_witness :
    partialCorpus[0]? =
      some ("HB1_OVER_TEMP.csv",
        [[("Ia", 1), ("Ib", 2), ("VDC", 3), ("IDC", 4), ("T1", 5), ("T2", 6), ("FDD", 2)]]) ∧
    ∃ s, get_random_sample partialCorpus 0 0 = some s ∧
      docKeys s = (FEATURE_COLS.filter fun c =>
          (List.lookup c [("Ia", (1 : ℚ)), ("Ib", 2), ("VDC", 3), ("IDC", 4),
            ("T1", 5), ("T2", 6), ("FDD", 2)]).isSome)
        ++ ["source_file", "timestamp"] :=
  ⟨by decide,
   C10_missing_channels_omitted partialCorpus 0 0 "HB1_OVER_TEMP.csv"
     [[("Ia", 1), ("Ib", 2), ("VDC", 3), ("IDC", 4), ("T1", 5), ("T2", 6), ("FDD", 2)]]
     [("Ia", 1), ("Ib", 2), ("VDC", 3), ("IDC", 4), ("T1", 5), ("T2", 6), ("FDD", 2)]
     (by decide) (by decide)⟩

/-- Witness for C9 at a concrete snapshot. -/
theorem C9_uptime_span_witness :
    ([vExample] : List Verdict) ≠ [] ∧
    ReportItem.uptimeHours ((tsMax [vExample] - tsMin [vExample]) / 3600) ∈
      generate_pdf_report [vExample] :=
  ⟨by decide, C9_uptime_span.1 [vExample] (by decide)⟩

end PMSM
